import Mathlib

/-!
# Verification of the PyCHAMP core against its specification

Shallow embedding of the decision core of the PyCHAMP repository:
* `src/miniCHAMP/opt_model.py` — the per-agent optimization model builder
  (class `OptModel`); and
* `src/py_champ/entities/farmer.py` — the CONSUMAT behavioural state machine
  (class `Farmer`).

Python floats are modelled by `ℚ` wherever the code only compares, adds,
multiplies and divides, and by `ℝ` where genuine transcendental functions
(the solver's `exp` general constraints) appear.  Fallible code (assertion
failures, unbound locals, out-of-range indexing) is modelled with `Option` /
`Except`: `none` / `.error` means the Python call does not complete normally.
-/

namespace PyCHAMP

/-! ## Water rights: `OptModel.setup_constr_wr`

`setup_constr_wr(water_right_id, wr, field_id_list, time_window, start_index,
remaining_wr, tail_wr)` partitions the planning horizon `n_h` into groups of
constraints ("windows").  For each window the code calls `m.addConstrs(...)`
which adds, FOR EVERY SINGLE YEAR `h` of that window, the constraint
`sum_{i,j} irr_sub[i,j,h] <= cap` — one inequality per year, each bounding
only that year's irrigation sum, not a cumulative sum over the window.

A `WrWindow` records one such `addConstrs` group: its first year `start`, its
one-past-last year `stop`, and the cap used on the right-hand side. -/

/-- One constraint group emitted by `setup_constr_wr`: the years
`start ≤ h < stop` and the cap applied to each year of the group. -/
structure WrWindow where
  start : ℕ
  stop : ℕ
  cap : ℚ
  deriving Repr, DecidableEq

/-- Tail-window policy argument `tail_wr` of `setup_constr_wr`:
the string `"propotion"` (default), the string `"wr"`, or a user value. -/
inductive TailWr where
  | propotion : TailWr
  | wrKeyword : TailWr
  | value : ℚ → TailWr
  deriving Repr, DecidableEq

/-- The `while remaining_length > time_window` loop of `setup_constr_wr`:
emits one full window `[start, start+tw)` per iteration, advancing `start`
and decreasing `remaining` by `tw`.  With `tw = 0` and `remaining > 0` the
Python loop never terminates, which is modelled by `none`.  Returns the
emitted windows together with the final `start_index` and
`remaining_length`. -/
def wrMiddleLoop (wr : ℚ) (tw : ℕ) (start remaining : ℕ) :
    Option (List WrWindow × ℕ × ℕ) :=
  if _h : remaining > tw then
    if _h0 : tw = 0 then none
    else
      match wrMiddleLoop wr tw (start + tw) (remaining - tw) with
      | none => none
      | some (ws, s, r) => some (⟨start, start + tw, wr⟩ :: ws, s, r)
  else some ([], start, remaining)
  termination_by remaining
  decreasing_by omega

/-- The full window-generation logic of `setup_constr_wr` (opt_model.py,
lines 587–623).  `carry` bundles the optional `start_index` / `remaining_wr`
pair (the code only uses them when both are given).  Mirrors the source:
an initial partial window `[0, start_index+1)` capped at `remaining_wr`
(the Python raises `IndexError` when `start_index ≥ n_h`, since the
constraint generator indexes `irr_sub[..., h]` for `h` up to `start_index`;
the attempted clamp `start_index = max(n_h, start_index+1) - 1` leaves
`start_index` unchanged); then full windows of length `time_window` capped
at `wr`; then, if years remain, a tail window capped according to `tail_wr`
— for a user-supplied numeric `tail_wr` the source never assigns the local
`wr_tail`, so the call dies with `UnboundLocalError`, modelled as `none`. -/
def setup_constr_wr (wr : ℚ) (time_window n_h : ℕ)
    (carry : Option (ℕ × ℚ)) (tail_wr : TailWr) : Option (List WrWindow) :=
  let ini : Option (List WrWindow × ℕ) :=
    match carry with
    | some (start_index, remaining_wr) =>
        if start_index ≥ n_h then none
        else some ([⟨0, start_index + 1, remaining_wr⟩], start_index)
    | none => some ([], 0)
  match ini with
  | none => none
  | some (iniWs, start_index) =>
    let remaining_length := n_h - start_index
    match wrMiddleLoop wr time_window start_index remaining_length with
    | none => none
    | some (midWs, start_index, remaining_length) =>
      if remaining_length > 0 then
        match tail_wr with
        | TailWr.propotion =>
            some (iniWs ++ midWs ++
              [⟨start_index, n_h, wr * remaining_length / time_window⟩])
        | TailWr.wrKeyword => some (iniWs ++ midWs ++ [⟨start_index, n_h, wr⟩])
        | TailWr.value _ => none
      else some (iniWs ++ midWs)

/-- The constraints of one window group, exactly as `addConstrs` emits them:
for every year `h` of the window, the irrigation summed over the `n_s`
sub-areas and `n_c` crops of that single year is at most the window cap. -/
def wrWindowHolds (irr_sub : ℕ → ℕ → ℕ → ℚ) (n_s n_c : ℕ) (w : WrWindow) :
    Prop :=
  ∀ h ∈ Finset.Ico w.start w.stop,
    (∑ i ∈ Finset.range n_s, ∑ j ∈ Finset.range n_c, irr_sub i j h) ≤ w.cap

/-- Cumulative irrigation over all sub-areas, crops and all years of a
window — the quantity the specification says each window caps. -/
def wrCumulative (irr_sub : ℕ → ℕ → ℕ → ℚ) (n_s n_c : ℕ) (w : WrWindow) : ℚ :=
  ∑ h ∈ Finset.Ico w.start w.stop,
    ∑ i ∈ Finset.range n_s, ∑ j ∈ Finset.range n_c, irr_sub i j h

instance (irr_sub : ℕ → ℕ → ℕ → ℚ) (n_s n_c : ℕ) (w : WrWindow) :
    Decidable (wrWindowHolds irr_sub n_s n_c w) :=
  inferInstanceAs (Decidable (∀ h ∈ Finset.Ico w.start w.stop, _ ≤ w.cap))

/-- C1: the claim says every feasible solution's irrigation, summed over all
sub-areas, crops AND ALL YEARS of a water-right window, is at most the
window's cap.  The code instead emits one constraint per year of the window.
At depth cap `wr = 1`, `time_window = 2`, `horizon = 2`, no carry-over,
proportional tail, the code generates the single window `[0,2)` with cap `1`;
the irrigation plan putting depth `1` in each year (one sub-area, one crop)
satisfies every constraint the code emits, yet its cumulative irrigation over
the window is `2 > 1`.  This contradicts the claim and `setup_constr_wr`'s
own docstring ("the water right constrains the total irrigation depth over
the time window"). -/
theorem wr_per_year_constraint_violates_cumulative_cap :
    setup_constr_wr 1 2 2 none TailWr.propotion = some [⟨0, 2, 1⟩] ∧
    wrWindowHolds (fun _ _ _ => 1) 1 1 ⟨0, 2, 1⟩ ∧
    wrCumulative (fun _ _ _ => 1) 1 1 ⟨0, 2, 1⟩ = 2 ∧ ¬ ((2 : ℚ) ≤ 1) := by
  refine ⟨by simp [setup_constr_wr, wrMiddleLoop], ?_, ?_, by norm_num⟩
  · intro h _
    simp [Finset.sum_range_one]
  · simp [wrCumulative, Finset.sum_range_one]

/-- C5: with depth cap `50`, `time_window = 3`, `horizon = 7`, no carry-over
and the proportional tail policy, `setup_constr_wr` generates exactly three
constraint windows: two full 3-year windows each capped at `50`, and one
tail window of length 1 capped at `50·(1/3)`. -/
theorem wr_windows_cap50_tw3_h7 :
    setup_constr_wr 50 3 7 none TailWr.propotion =
      some [⟨0, 3, 50⟩, ⟨3, 6, 50⟩, ⟨6, 7, 50 * (1 / 3)⟩] := by
  simp [setup_constr_wr, wrMiddleLoop]
  norm_num

/-- C6: the claim says a numeric `tail_wr` completes normally with the tail
window capped at that value.  In the source the branch for a numeric
`tail_wr` never assigns the local `wr_tail`, so the call dies with
`UnboundLocalError` whenever a tail window exists (modelled as `none`):
at `wr = 50`, `time_window = 3`, `horizon = 7`, `tail_wr = 10` the call does
not complete. -/
theorem wr_numeric_tail_crashes :
    setup_constr_wr 50 3 7 none (TailWr.value 10) = none := by
  simp [setup_constr_wr, wrMiddleLoop]

/-! ## Fields: `OptModel.setup_constr_field`

The method begins with `assert prec <= np.max(self.wmax)` and then adds the
per-field variable block.  The water constraints relevant to feasibility:
`irr` has lower bound `0`, `w == irr + prec`, `w_ == w / wmax` (broadcast
over every sub-area × crop × year cell, whatever crop is selected), and the
variable `w_` is created with bounds `lb=0, ub=1`. -/

/-- `np.max` over a 1-d array of rationals; `none` on an empty array
(where NumPy raises). -/
def npMax : List ℚ → Option ℚ
  | [] => none
  | x :: xs => some (xs.foldl max x)

/-- The guard `assert prec <= np.max(self.wmax)` at the top of
`setup_constr_field` (opt_model.py line 251): `true` means the assert
passes and the field block is added. -/
def setup_constr_field_assert (wmax : List ℚ) (prec : ℚ) : Bool :=
  match npMax wmax with
  | none => false
  | some mx => decide (prec ≤ mx)

/-- The water-related decision variables of one field block. -/
structure FieldVars where
  irr : ℕ → ℕ → ℕ → ℚ
  w : ℕ → ℕ → ℕ → ℚ
  wrel : ℕ → ℕ → ℕ → ℚ

/-- The water constraints and variable bounds of one field block, for every
cell `(i, j, h)` with `i < n_s` sub-areas, `j` ranging over the crop options
(`wmax.length` of them) and `h < n_h` years: `irr ≥ 0` (variable lower
bound), `w = irr + prec`, `wrel = w / wmax[j]` (the variable `w_` of the
source), and `0 ≤ wrel ≤ 1` (bounds of `w_`). -/
def fieldWaterFeasible (wmax : List ℚ) (prec : ℚ) (n_s n_h : ℕ)
    (fv : FieldVars) : Prop :=
  (∀ i j h, i < n_s → j < wmax.length → h < n_h → 0 ≤ fv.irr i j h) ∧
  (∀ i j h, i < n_s → j < wmax.length → h < n_h →
    fv.w i j h = fv.irr i j h + prec) ∧
  (∀ i j h, i < n_s → j < wmax.length → h < n_h →
    fv.wrel i j h = fv.w i j h / wmax.getD j 0) ∧
  (∀ i j h, i < n_s → j < wmax.length → h < n_h →
    0 ≤ fv.wrel i j h ∧ fv.wrel i j h ≤ 1)

/-- C7: the claim says `setup_constr_field` fails whenever the precipitation
exceeds the maximum water requirement of ANY crop option.  The source only
checks `prec <= np.max(self.wmax)`, the maximum over ALL crop options: with
crop water requirements `[30, 50]` and precipitation `40`, the assert passes
(`40 ≤ 50`) even though `40` exceeds crop 0's requirement `30` — and the
resulting field block is infeasible, exactly the situation the assert's own
message says it exists to prevent ("This will lead to infeasible solution"):
every feasible assignment would need `w_ = (irr + 40)/30 ≤ 1` with
`irr ≥ 0`, which is impossible. -/
theorem field_assert_passes_on_infeasible_prec :
    setup_constr_field_assert [30, 50] 40 = true ∧
    ¬ ((40 : ℚ) ≤ 30) ∧
    ¬ ∃ fv : FieldVars, fieldWaterFeasible [30, 50] 40 1 1 fv := by
  refine ⟨by decide, by norm_num, ?_⟩
  rintro ⟨fv, hlb, hw, hwrel, hbounds⟩
  have h1 := hlb 0 0 0 (by norm_num) (by simp) (by norm_num)
  have h2 := hw 0 0 0 (by norm_num) (by simp) (by norm_num)
  have h3 := hwrel 0 0 0 (by norm_num) (by simp) (by norm_num)
  have h4 := (hbounds 0 0 0 (by norm_num) (by simp) (by norm_num)).2
  rw [h3, h2] at h4
  simp only [List.getD_cons_zero] at h4
  have h5 : fv.irr 0 0 0 + 40 ≤ 30 := by
    have h30 : (0 : ℚ) < 30 := by norm_num
    calc fv.irr 0 0 0 + 40 = (fv.irr 0 0 0 + 40) / 30 * 30 := by field_simp
    _ ≤ 1 * 30 := by exact mul_le_mul_of_nonneg_right h4 (by norm_num)
    _ = 30 := by norm_num
  linarith

/-! ## Finance: `OptModel.setup_constr_finance`

`setup_ini_model` creates `profit` with bounds `lb=0, ub=inf` (line 202);
`setup_constr_finance` creates `cost_e` and `rev` with `lb=0` and adds
`cost_e == e * energy_price`,
`rev == Σ_{i,c} y[i,c,:] * crop_profit[c]`, and
`profit == rev - cost_e`. -/

/-- Variables touched by the finance constraints. -/
structure FinanceVars where
  e : ℕ → ℚ
  y : ℕ → ℕ → ℕ → ℚ
  cost_e : ℕ → ℚ
  rev : ℕ → ℚ
  profit : ℕ → ℚ

/-- The finance constraint set and the relevant variable lower bounds, per
horizon year `h < n_h`, with `n_s` sub-areas and the list `crop_profit` of
per-crop profits indexed like `crop_options`. -/
def financeFeasible (energy_price : ℚ) (crop_profit : List ℚ) (n_s n_h : ℕ)
    (fv : FinanceVars) : Prop :=
  (∀ h, h < n_h → 0 ≤ fv.profit h) ∧
  (∀ h, h < n_h → 0 ≤ fv.cost_e h) ∧
  (∀ h, h < n_h → 0 ≤ fv.rev h) ∧
  (∀ h, h < n_h → fv.cost_e h = fv.e h * energy_price) ∧
  (∀ h, h < n_h → fv.rev h =
    ∑ i ∈ Finset.range n_s, ∑ j ∈ Finset.range crop_profit.length,
      fv.y i j h * crop_profit.getD j 0) ∧
  (∀ h, h < n_h → fv.profit h = fv.rev h - fv.cost_e h)

/-- C9: every feasible solution of the finance block has nonnegative profit
in every horizon year, and consequently its revenue covers its energy cost
in every year — an agent-year that could only realize revenue below energy
cost admits no feasible solution rather than a negative-profit optimum. -/
theorem profit_nonneg_of_feasible (energy_price : ℚ) (crop_profit : List ℚ)
    (n_s n_h : ℕ) (fv : FinanceVars)
    (hf : financeFeasible energy_price crop_profit n_s n_h fv) :
    ∀ h, h < n_h → 0 ≤ fv.profit h ∧ fv.cost_e h ≤ fv.rev h := by
  intro h hh
  obtain ⟨hp, _, _, _, _, heq⟩ := hf
  have h1 := hp h hh
  have h2 := heq h hh
  constructor
  · exact h1
  · rw [h2] at h1
    linarith

/-- Witness for C9: the all-zero assignment is feasible for
`energy_price = 1`, `crop_profit = [1]`, one sub-area, one-year horizon,
and the theorem applies to it. -/
theorem profit_nonneg_of_feasible_witness :
    financeFeasible 1 [1] 1 1 ⟨fun _ => 0, fun _ _ _ => 0, fun _ => 0,
      fun _ => 0, fun _ => 0⟩ ∧
    ∀ h, h < 1 →
      0 ≤ (⟨fun _ => 0, fun _ _ _ => 0, fun _ => 0, fun _ => 0,
        fun _ => 0⟩ : FinanceVars).profit h ∧
      (⟨fun _ => 0, fun _ _ _ => 0, fun _ => 0, fun _ => 0,
        fun _ => 0⟩ : FinanceVars).cost_e h ≤
      (⟨fun _ => 0, fun _ _ _ => 0, fun _ => 0, fun _ => 0,
        fun _ => 0⟩ : FinanceVars).rev h := by
  have hfeas : financeFeasible 1 [1] 1 1 ⟨fun _ => 0, fun _ _ _ => 0,
      fun _ => 0, fun _ => 0, fun _ => 0⟩ := by
    refine ⟨?_, ?_, ?_, ?_, ?_, ?_⟩ <;> intro h hh <;> simp
  exact ⟨hfeas, profit_nonneg_of_feasible 1 [1] 1 1 _ hfeas⟩

/-! ## CONSUMAT state machine: `Farmer.run_simulation`

At the end of `run_simulation` (farmer.py lines 341-348) the next CONSUMAT
state is chosen from `satisfaction` and `uncertainty` against the two
thresholds; lines 350-351 can then override it with a configured
`fix_state`.  The transition is a pure comparison cascade, modelled over an
arbitrary linear order (Python compares floats). -/

/-- The CONSUMAT decision modes; the first four correspond to the strings
`"Imitation"`, `"Social comparison"`, `"Repetition"`, `"Deliberation"`,
and `FixCrop` to the experimental override mode `"FixCrop"`. -/
inductive ConsumatState where
  | Imitation
  | SocialComparison
  | Repetition
  | Deliberation
  | FixCrop
  deriving Repr, DecidableEq

/-- The `if/elif` cascade ending `Farmer.run_simulation`: the four guards of
the source in order; the trailing case (no guard matched) keeps the
previous state, exactly as falling through every `elif` would in Python. -/
def consumatTransition {α : Type} [LinearOrder α]
    (satisfaction uncertainty sa_thre un_thre : α)
    (prev : ConsumatState) : ConsumatState :=
  if satisfaction ≥ sa_thre ∧ uncertainty ≥ un_thre then
    ConsumatState.Imitation
  else if satisfaction < sa_thre ∧ uncertainty ≥ un_thre then
    ConsumatState.SocialComparison
  else if satisfaction ≥ sa_thre ∧ uncertainty < un_thre then
    ConsumatState.Repetition
  else if satisfaction < sa_thre ∧ uncertainty < un_thre then
    ConsumatState.Deliberation
  else prev

/-- C3: the state transition at the end of `run_simulation` is total and
deterministic over real satisfaction/uncertainty: whatever the previous
state, it yields one of the four CONSUMAT states, and each state is reached
exactly on its cell of the partition, with the boundary `≥` on the
high-satisfaction / high-uncertainty side. -/
theorem run_simulation_state_partition (s u sa_thre un_thre : ℝ)
    (prev : ConsumatState) :
    (consumatTransition s u sa_thre un_thre prev = ConsumatState.Imitation ∨
     consumatTransition s u sa_thre un_thre prev = ConsumatState.SocialComparison ∨
     consumatTransition s u sa_thre un_thre prev = ConsumatState.Repetition ∨
     consumatTransition s u sa_thre un_thre prev = ConsumatState.Deliberation) ∧
    (consumatTransition s u sa_thre un_thre prev = ConsumatState.Imitation ↔
      s ≥ sa_thre ∧ u ≥ un_thre) ∧
    (consumatTransition s u sa_thre un_thre prev = ConsumatState.SocialComparison ↔
      s < sa_thre ∧ u ≥ un_thre) ∧
    (consumatTransition s u sa_thre un_thre prev = ConsumatState.Repetition ↔
      s ≥ sa_thre ∧ u < un_thre) ∧
    (consumatTransition s u sa_thre un_thre prev = ConsumatState.Deliberation ↔
      s < sa_thre ∧ u < un_thre) := by
  rcases le_or_lt sa_thre s with h1 | h1 <;> rcases le_or_lt un_thre u with h2 | h2
  · simp [consumatTransition, ge_iff_le, h1, h2, h1.not_lt, h2.not_lt]
  · simp [consumatTransition, ge_iff_le, h1, h2, h1.not_lt, h2.not_le]
  · simp [consumatTransition, ge_iff_le, h1, h2, h1.not_le, h2.not_lt]
  · simp [consumatTransition, ge_iff_le, h1, h2, h1.not_le, h2.not_le]

/-! ## Decision phase: `make_dm_social_comparison` and `make_dm_imitation`

`dm_sols`, the output of one `make_dm` optimization run, is modelled by its
objective value `obj` together with an opaque payload standing for the rest
of the solution dictionary.  The Repetition-pattern solve performed by
`make_dm` is abstracted as a function from the previous solution used as
fixed input to the new solution. -/

/-- One `make_dm` solution: its objective value `obj` (`dm_sols['obj']`)
plus the remainder of the solution dictionary, abstracted as a payload. -/
structure DmSols where
  obj : ℚ
  payload : ℕ
  deriving Repr, DecidableEq

/-- Helper facts about `List.foldl max`, which models Python's builtin
`max` (and NumPy's `np.max`) over a nonempty list. -/
theorem le_foldl_max (x : ℚ) (xs : List ℚ) : x ≤ xs.foldl max x := by
  induction xs generalizing x with
  | nil => exact le_refl x
  | cons y ys ih => exact le_trans (le_max_left x y) (ih (max x y))

theorem mem_le_foldl_max (x : ℚ) (xs : List ℚ) : ∀ a ∈ xs, a ≤ xs.foldl max x := by
  induction xs generalizing x with
  | nil => intro a ha; simp at ha
  | cons y ys ih =>
    intro a ha
    rcases List.mem_cons.mp ha with h | h
    · subst h
      exact le_trans (le_max_right x a) (le_foldl_max _ _)
    · exact ih (max x y) a h

theorem foldl_max_mem (x : ℚ) (xs : List ℚ) : xs.foldl max x ∈ x :: xs := by
  induction xs generalizing x with
  | nil => simp
  | cons y ys ih =>
    rcases List.mem_cons.mp (ih (max x y)) with h | h
    · show List.foldl max (max x y) ys ∈ x :: y :: ys
      rw [h]
      rcases max_choice x y with hc | hc <;> rw [hc] <;> simp
    · show List.foldl max (max x y) ys ∈ x :: y :: ys
      simp [h]

theorem npMax_mem (l : List ℚ) (m : ℚ) (h : npMax l = some m) : m ∈ l := by
  cases l with
  | nil => simp [npMax] at h
  | cons x xs =>
    simp only [npMax, Option.some.injEq] at h
    exact h ▸ foldl_max_mem x xs

theorem le_npMax (l : List ℚ) (m : ℚ) (h : npMax l = some m) :
    ∀ a ∈ l, a ≤ m := by
  cases l with
  | nil => simp [npMax] at h
  | cons x xs =>
    simp only [npMax, Option.some.injEq] at h
    intro a ha
    rcases List.mem_cons.mp ha with h1 | h1
    · exact h ▸ h1 ▸ le_foldl_max x xs
    · exact h ▸ mem_le_foldl_max x xs a h1

theorem npMax_isSome (l : List ℚ) (h : l ≠ []) : ∃ m, npMax l = some m := by
  cases l with
  | nil => exact absurd rfl h
  | cons x xs => exact ⟨xs.foldl max x, rfl⟩

/-- Python's `list.index(v)`: the index of the first occurrence of `v`
(only called on values known to occur; on a missing value Python raises
`ValueError`, a case never reached below). -/
def pyIndex (l : List ℚ) (v : ℚ) : ℕ :=
  match l with
  | [] => 0
  | x :: xs => if x = v then 0 else pyIndex xs v + 1

theorem getD_pyIndex_map (l : List DmSols) (m : ℚ) (d : DmSols)
    (hm : m ∈ l.map DmSols.obj) :
    l.getD (pyIndex (l.map DmSols.obj) m) d ∈ l ∧
    (l.getD (pyIndex (l.map DmSols.obj) m) d).obj = m := by
  induction l with
  | nil => simp at hm
  | cons a as ih =>
    simp only [List.map_cons, pyIndex]
    by_cases hea : a.obj = m
    · simp [hea]
    · simp only [hea, if_false, List.getD_cons_succ]
      have hm' : m ∈ as.map DmSols.obj := by
        rcases List.mem_cons.mp hm with h | h
        · exact absurd h.symm hea
        · exact h
      rcases ih hm' with ⟨h1, h2⟩
      exact ⟨List.mem_cons_of_mem _ h1, h2⟩

/-- `Farmer.make_dm_social_comparison` (farmer.py lines 531-564): one
Repetition-pattern solve per network peer using that peer's previous
solution (`dm_sols_list`), the maximum peer objective and the (first) index
attaining it, then one solve with the agent's own previous solution; the
agent keeps its own solution when its objective is `≥` the best peer
objective and otherwise adopts the selected peer's.  Returns the adopted
solution and the selected peer index (cached in
`selected_agt_id_in_network`); `none` models the `ValueError` that
`max([])` raises on an empty network. -/
def make_dm_social_comparison (solveRep : DmSols → DmSols)
    (peerPrev : List DmSols) (ownPrev : DmSols) : Option (DmSols × ℕ) :=
  let dm_sols_list := peerPrev.map solveRep
  let objs := dm_sols_list.map DmSols.obj
  match npMax objs with
  | none => none
  | some selected_agt_obj =>
    let select_agt_index := pyIndex objs selected_agt_obj
    let own := solveRep ownPrev
    if own.obj ≥ selected_agt_obj then some (own, select_agt_index)
    else some (dm_sols_list.getD select_agt_index own, select_agt_index)

/-- C4: on a nonempty network, `make_dm_social_comparison` runs one
Repetition-pattern solve per peer plus one with the agent's own previous
choices, and adopts the solution of maximum objective: the adopted
objective is `max(own, best peer)`; the agent keeps its own solution
exactly when its objective is `≥` the best peer objective (ties favour the
agent), and otherwise adopts a peer solution attaining the maximum. -/
theorem social_comparison_adopts_max (solveRep : DmSols → DmSols)
    (peerPrev : List DmSols) (ownPrev : DmSols) (hne : peerPrev ≠ []) :
    ∃ m result idx,
      npMax ((peerPrev.map solveRep).map DmSols.obj) = some m ∧
      make_dm_social_comparison solveRep peerPrev ownPrev = some (result, idx) ∧
      result.obj = max (solveRep ownPrev).obj m ∧
      (m ≤ (solveRep ownPrev).obj → result = solveRep ownPrev) ∧
      ((solveRep ownPrev).obj < m →
        result ∈ peerPrev.map solveRep ∧ result.obj = m) := by
  have hne' : (peerPrev.map solveRep).map DmSols.obj ≠ [] := by
    simp [hne]
  obtain ⟨m, hm⟩ := npMax_isSome _ hne'
  have hunf : make_dm_social_comparison solveRep peerPrev ownPrev =
      (if (solveRep ownPrev).obj ≥ m then
        some (solveRep ownPrev, pyIndex ((peerPrev.map solveRep).map DmSols.obj) m)
      else
        some ((peerPrev.map solveRep).getD
          (pyIndex ((peerPrev.map solveRep).map DmSols.obj) m) (solveRep ownPrev),
          pyIndex ((peerPrev.map solveRep).map DmSols.obj) m)) := by
    simp only [make_dm_social_comparison]
    rw [hm]
  refine ⟨m, ?_⟩
  by_cases hcmp : (solveRep ownPrev).obj ≥ m
  · refine ⟨solveRep ownPrev, pyIndex ((peerPrev.map solveRep).map DmSols.obj) m,
      hm, ?_, ?_, fun _ => rfl, fun hlt => absurd hcmp hlt.not_le⟩
    · rw [hunf, if_pos hcmp]
    · exact (max_eq_left hcmp).symm
  · have hlt : (solveRep ownPrev).obj < m := lt_of_not_le hcmp
    have hmem : m ∈ (peerPrev.map solveRep).map DmSols.obj := npMax_mem _ _ hm
    obtain ⟨hsel_mem, hsel_obj⟩ :=
      getD_pyIndex_map (peerPrev.map solveRep) m (solveRep ownPrev) hmem
    refine ⟨(peerPrev.map solveRep).getD
        (pyIndex ((peerPrev.map solveRep).map DmSols.obj) m) (solveRep ownPrev),
      pyIndex ((peerPrev.map solveRep).map DmSols.obj) m, hm, ?_, ?_, ?_, ?_⟩
    · rw [hunf, if_neg hcmp]
    · rw [hsel_obj]
      exact (max_eq_right hlt.le).symm
    · intro hge
      exact absurd hge hcmp
    · intro _
      exact ⟨hsel_mem, hsel_obj⟩

/-- Witness for C4: one peer whose repetition objective is `0.70` against an
own objective of `0.62` (the solve is the identity on the recorded
solutions); the theorem applies and the peer's solution is adopted. -/
theorem social_comparison_adopts_max_witness :
    ([⟨7/10, 1⟩] : List DmSols) ≠ [] ∧
    (∃ m result idx,
      npMax ((([⟨7/10, 1⟩] : List DmSols).map id).map DmSols.obj) = some m ∧
      make_dm_social_comparison id [⟨7/10, 1⟩] ⟨62/100, 0⟩ = some (result, idx) ∧
      result.obj = max (id (⟨62/100, 0⟩ : DmSols)).obj m ∧
      (m ≤ (id (⟨62/100, 0⟩ : DmSols)).obj → result = id (⟨62/100, 0⟩ : DmSols)) ∧
      ((id (⟨62/100, 0⟩ : DmSols)).obj < m →
        result ∈ ([⟨7/10, 1⟩] : List DmSols).map id ∧ result.obj = m)) :=
  ⟨by simp, social_comparison_adopts_max id [⟨7/10, 1⟩] ⟨62/100, 0⟩ (by simp)⟩

/-- The persistent Farmer fields the decision phase can read or write. -/
structure FarmerAgent where
  selected_agt_id_in_network : Option ℕ
  dm_sols : DmSols
  state : ConsumatState
  satisfaction : ℚ
  expected_sa : ℚ
  uncertainty : ℚ

/-- `Farmer.make_dm_imitation` (farmer.py lines 566-588): reads the cached
peer id into a LOCAL variable, drawing a random peer id (`draw`, the value
produced by `rngen.choice(agt_ids_in_network)`) only when the cache is
`None`; runs `make_dm` (abstracted as `makeDm`) on that peer's previous
solution (`network` resolves ids to peers' `dm_sols`); and writes only
`self.dm_sols`. -/
def make_dm_imitation (makeDm : DmSols → DmSols) (network : ℕ → DmSols)
    (draw : ℕ) (ag : FarmerAgent) : FarmerAgent :=
  let selected_agt_id_in_network :=
    match ag.selected_agt_id_in_network with
    | some i => i
    | none => draw
  { ag with dm_sols := makeDm (network selected_agt_id_in_network) }

/-- C10: `make_dm_imitation` never writes the cached peer id — the drawn id
is used only locally (when the cache is `None`, the used peer is the drawn
one, but the cache stays `None` afterwards) — and the only agent field it
writes is `dm_sols`. -/
theorem imitation_writes_only_dm_sols (makeDm : DmSols → DmSols)
    (network : ℕ → DmSols) (draw : ℕ) (ag : FarmerAgent) :
    (make_dm_imitation makeDm network draw ag).selected_agt_id_in_network =
      ag.selected_agt_id_in_network ∧
    (make_dm_imitation makeDm network draw ag).state = ag.state ∧
    (make_dm_imitation makeDm network draw ag).satisfaction = ag.satisfaction ∧
    (make_dm_imitation makeDm network draw ag).expected_sa = ag.expected_sa ∧
    (make_dm_imitation makeDm network draw ag).uncertainty = ag.uncertainty ∧
    (make_dm_imitation makeDm network draw ag).dm_sols =
      makeDm (network (match ag.selected_agt_id_in_network with
        | some i => i
        | none => draw)) :=
  ⟨rfl, rfl, rfl, rfl, rfl, rfl⟩

/-! ## Objective: `OptModel.setup_obj`

For each metric with a non-null alpha weight, `add_metric` adds
`N_yr_x == -alpha * metric_var`, the exponential general constraints
`N_yr_y[h] = exp(N_yr_x[h])`, `N_yr == 1 - N_yr_y`, and
`Sa == (Σ_h N_yr[h]) / n_h`, with variable bounds
`N_yr_x ≤ 0`, `N_yr_y ≥ 0`, `N_yr ∈ [0,1]`, `Sa ∈ [0,1]`.  The metric
variable entering `N_yr_x` is the raw `profit` / `y_y` model variable.
When the loop reaches `eval_metric` it installs that metric's `Sa` as the
maximisation objective. -/

/-- The metrics `eval_metric_vars` supports: `"profit"` and `"yield_pct"`. -/
inductive MetricName where
  | profit
  | yield_pct
  deriving Repr, DecidableEq

/-- The variables `add_metric` creates for one metric. -/
structure SaVars where
  N_yr_x : ℕ → ℝ
  N_yr_y : ℕ → ℝ
  N_yr : ℕ → ℝ
  Sa : ℝ

/-- The constraint set and variable bounds `add_metric` adds for one metric
of weight `alpha`, over horizon `n_h`, with `metric` the raw metric
variable. -/
def saBlockFeasible (alpha : ℝ) (n_h : ℕ) (metric : ℕ → ℝ) (sv : SaVars) :
    Prop :=
  (∀ h, h < n_h → sv.N_yr_x h ≤ 0) ∧
  (∀ h, h < n_h → 0 ≤ sv.N_yr_y h) ∧
  (∀ h, h < n_h → 0 ≤ sv.N_yr h ∧ sv.N_yr h ≤ 1) ∧
  (0 ≤ sv.Sa ∧ sv.Sa ≤ 1) ∧
  (∀ h, h < n_h → sv.N_yr_x h = -alpha * metric h) ∧
  (∀ h, h < n_h → sv.N_yr_y h = Real.exp (sv.N_yr_x h)) ∧
  (∀ h, h < n_h → sv.N_yr h = 1 - sv.N_yr_y h) ∧
  sv.Sa = (∑ h ∈ Finset.range n_h, sv.N_yr h) / n_h

/-- The satisfaction value the code's constraints force: the mean over the
horizon of `1 − exp(−alpha · metric)`, with the RAW metric variable. -/
noncomputable def saCode (alpha : ℝ) (n_h : ℕ) (metric : ℕ → ℝ) : ℝ :=
  (∑ h ∈ Finset.range n_h, (1 - Real.exp (-alpha * metric h))) / n_h

/-- The satisfaction value in the words of the specification, which divides
the metric by its configured scale factor before applying
`1 − exp(−alpha·x)`; stated only for comparison with `saCode`. -/
noncomputable def saSpecScaled (alpha scale : ℝ) (n_h : ℕ) (metric : ℕ → ℝ) :
    ℝ :=
  (∑ h ∈ Finset.range n_h, (1 - Real.exp (-alpha * (metric h / scale)))) / n_h

/-- The objective `setup_obj` installs: the `Sa` variable of `eval_metric`,
maximised; `none` models the `ValueError` raised beforehand when
`eval_metric` carries no weight (is not among `eval_metrics`). -/
def setup_obj_objective (eval_metrics : List MetricName)
    (eval_metric : MetricName) (SaOf : MetricName → ℝ) : Option ℝ :=
  if eval_metric ∈ eval_metrics then some (SaOf eval_metric) else none

/-- C2 (amended): every assignment satisfying the `add_metric` block of a
weighted metric has `Sa` equal to the mean over the horizon of
`1 − exp(−alpha · metric)` where `metric` is the RAW metric variable — no
scale-factor division occurs inside the optimization model — and
`setup_obj` installs the `Sa` of the chosen `eval_metric` as the
maximisation objective. -/
theorem setup_obj_Sa_mean_unscaled (alpha : ℝ) (n_h : ℕ) (metric : ℕ → ℝ)
    (sv : SaVars) (eval_metrics : List MetricName) (eval_metric : MetricName)
    (SaOf : MetricName → ℝ) (hf : saBlockFeasible alpha n_h metric sv)
    (hmem : eval_metric ∈ eval_metrics) :
    sv.Sa = saCode alpha n_h metric ∧
    setup_obj_objective eval_metrics eval_metric SaOf =
      some (SaOf eval_metric) := by
  obtain ⟨_, _, _, _, hx, hy, hn, hSa⟩ := hf
  constructor
  · rw [hSa, saCode]
    congr 1
    apply Finset.sum_congr rfl
    intro h hh
    rw [Finset.mem_range] at hh
    rw [hn h hh, hy h hh, hx h hh]
  · simp [setup_obj_objective, hmem]

/-- Witness for C2's amended theorem: the zero metric with `alpha = 0` over
a one-year horizon, with the block assignment forced by the constraints,
and `profit` as the weighted evaluation metric. -/
theorem setup_obj_Sa_mean_unscaled_witness :
    (saBlockFeasible 0 1 (fun _ => 0) ⟨fun _ => 0, fun _ => 1, fun _ => 0, 0⟩ ∧
     MetricName.profit ∈ [MetricName.profit]) ∧
    ((⟨fun _ => 0, fun _ => 1, fun _ => 0, 0⟩ : SaVars).Sa =
      saCode 0 1 (fun _ => 0) ∧
     setup_obj_objective [MetricName.profit] MetricName.profit
       (fun _ => 0) = some 0) := by
  have hf : saBlockFeasible 0 1 (fun _ => 0)
      ⟨fun _ => 0, fun _ => 1, fun _ => 0, 0⟩ := by
    refine ⟨?_, ?_, ?_, ?_, ?_, ?_, ?_, ?_⟩ <;> simp [Real.exp_zero]
  have hmem : MetricName.profit ∈ [MetricName.profit] := by simp
  have hres := setup_obj_Sa_mean_unscaled 0 1 (fun _ => 0) _ [MetricName.profit]
    MetricName.profit (fun _ => 0) hf hmem
  exact ⟨⟨hf, hmem⟩, hres.1, hres.2⟩

/-- C2 counterexample: with `alpha = 1`, a one-year horizon and the metric
constantly `1`, the assignment forced by the code's constraints has
`Sa = 1 − exp(−1)`, whereas the claim's formula with configured scale
factor `2` gives `1 − exp(−1/2)`; the two differ, so the constraint block
does not equate `Sa` with the scaled-metric mean the claim states. -/
theorem setup_obj_scale_counterexample :
    saBlockFeasible 1 1 (fun _ => 1)
      ⟨fun _ => -1, fun _ => Real.exp (-1), fun _ => 1 - Real.exp (-1),
        1 - Real.exp (-1)⟩ ∧
    (⟨fun _ => -1, fun _ => Real.exp (-1), fun _ => 1 - Real.exp (-1),
        1 - Real.exp (-1)⟩ : SaVars).Sa ≠ saSpecScaled 1 2 1 (fun _ => 1) := by
  have hexp1 : Real.exp (-1 : ℝ) ≤ 1 := by
    rw [show (1:ℝ) = Real.exp 0 by rw [Real.exp_zero]]
    exact Real.exp_le_exp.mpr (by norm_num)
  have hexppos := (Real.exp_pos (-1 : ℝ)).le
  constructor
  · refine ⟨?_, ?_, ?_, ?_, ?_, ?_, ?_, ?_⟩
    · intro h hh; norm_num
    · intro h hh; exact hexppos
    · intro h hh; constructor
      · simp only
        linarith
      · simp only
        linarith
    · constructor
      · simp only
        linarith
      · simp only
        linarith
    · intro h hh; norm_num
    · intro h hh; rfl
    · intro h hh; rfl
    · simp
  · have hne : (1 : ℝ) - Real.exp (-1) ≠ 1 - Real.exp (-(1/2)) := by
      intro hcontra
      have h2 : Real.exp (-1 : ℝ) = Real.exp (-(1/2) : ℝ) := by linarith
      have h3 := Real.exp_eq_exp.mp h2
      norm_num at h3
    simpa [saSpecScaled] using hne

/-! ## Solving: `OptModel.solve` -/

/-- The error the specification's §7 says infeasibility raises. -/
inductive OptModelError where
  | InfeasibleModelError
  deriving Repr, DecidableEq

/-- The status handling of `OptModel.solve` (opt_model.py lines 813-828):
Gurobi status 2 (OPTIMAL) stores the solution and its objective value; any
other status (3 is INFEASIBLE) merely prints "Optimal solution is not
found." and records `optimal_obj_value = None`.  No path raises, so every
outcome is `.ok`; `.ok none` is a normal return carrying no solution. -/
def solve_outcome (status : ℤ) (objVal : ℚ) : Except OptModelError (Option ℚ) :=
  if status = 2 then Except.ok (some objVal) else Except.ok none

/-- C8 counterexample: with the solver reporting INFEASIBLE (status 3),
`solve` returns normally with no recorded objective; in particular it does
not raise `InfeasibleModelError` as the claim states. -/
theorem solve_infeasible_returns_normally :
    solve_outcome 3 0 = Except.ok none ∧
    solve_outcome 3 0 ≠ Except.error OptModelError.InfeasibleModelError := by
  constructor <;> simp [solve_outcome]

/-- C8 (amended): for every non-optimal solver status — infeasibility
included — `solve` returns normally with `optimal_obj_value = None` and no
exception; a minimal-conflict diagnostic is only produced if the caller
separately invokes `do_IIS_gp`. -/
theorem solve_non_optimal_returns_none (status : ℤ) (objVal : ℚ)
    (h : status ≠ 2) : solve_outcome status objVal = Except.ok none := by
  simp [solve_outcome, h]

/-- Witness for C8's amended theorem at the INFEASIBLE status 3. -/
theorem solve_non_optimal_returns_none_witness :
    (3 : ℤ) ≠ 2 ∧ solve_outcome 3 0 = Except.ok none :=
  ⟨by decide, solve_non_optimal_returns_none 3 0 (by decide)⟩

end PyCHAMP
